import Mathlib

/-!
# hcsshim: span exporter, layer facade, GUID derivation, container lifecycle

A shallow embedding of

* `internal/otelutil/exporter.go` (`LogrusExporter`),
* `layer.go` (`layerPath`, the layer pass-throughs, `NewGUID`),
* `interface.go` (`Container`),

followed by the theorems that settle the properties C1 .. C10.
-/

set_option autoImplicit false

namespace Otelutil

/-! ## Values carried by log fields -/

/-- A `time.Time` instant, as a number of nanoseconds counted from the zero `Time`. -/
structure Time where
  ns : Int
deriving DecidableEq, Repr

/-- The zero value of `time.Time`. -/
def Time.zero : Time := ⟨0⟩

/-- A `time.Duration`: a signed 64-bit count of nanoseconds. -/
abbrev Duration := Int

def minDuration : Duration := -(2 ^ 63)

def maxDuration : Duration := 2 ^ 63 - 1

/-- `t.Sub(u)` of the standard library: the duration `t - u`, saturated at the smallest and
largest value a `Duration` can hold. -/
def Time.Sub (t u : Time) : Duration :=
  let d := t.ns - u.ns
  if d < minDuration then minDuration else if maxDuration < d then maxDuration else d

/-- An `attribute.Value` of OpenTelemetry; floating point payloads are kept as their bit
patterns. The exporter stores these values as they are. -/
inductive AttrValue where
  | BOOL (b : Bool)
  | INT64 (i : Int)
  | FLOAT64 (bits : Nat)
  | STRING (s : String)
  | BOOLSLICE (bs : List Bool)
  | INT64SLICE (is : List Int)
  | FLOAT64SLICE (bits : List Nat)
  | STRINGSLICE (ss : List String)
deriving DecidableEq, Repr

/-- An `attribute.KeyValue`. -/
structure KeyValue where
  Key : String
  Value : AttrValue
deriving DecidableEq, Repr

/-- The dynamically typed values (`interface{}`) that end up in `logrus.Fields`. -/
inductive Value where
  /-- a Go `string` -/
  | str (s : String)
  /-- a Go `bool` -/
  | bool (b : Bool)
  /-- a Go `int` -/
  | int (i : Int)
  /-- a `time.Time` -/
  | time (t : Time)
  /-- a `time.Duration` -/
  | duration (d : Duration)
  /-- an `attribute.Value` -/
  | attr (v : AttrValue)
  /-- a bound method value of type `func() string`; `result` is what a call of it returns -/
  | method (result : String)
deriving DecidableEq, Repr

/-- `logrus.Fields`, a `map[string]interface{}`: a finite map with unique keys. -/
abbrev Fields := AList (fun _ : String => Value)

/-! ## Spans -/

/-- A `trace.TraceID`: 16 bytes. -/
structure TraceID where
  bytes : List UInt8
deriving DecidableEq, Repr

/-- A `trace.SpanID`: 8 bytes. -/
structure SpanID where
  bytes : List UInt8
deriving DecidableEq, Repr

def hexDigit (n : Nat) : Char :=
  if n < 10 then Char.ofNat (48 + n) else Char.ofNat (87 + n)

/-- Lower-case hexadecimal encoding (`hex.EncodeToString`). -/
def hexEncode (bs : List UInt8) : String :=
  String.mk (bs.flatMap fun b => [hexDigit (b.toNat / 16), hexDigit (b.toNat % 16)])

def TraceID.String (t : TraceID) : String := hexEncode t.bytes

def SpanID.String (s : SpanID) : String := hexEncode s.bytes

/-- A `trace.SpanContext`, reduced to the two identifiers the exporter reads. -/
structure SpanContext where
  TraceID : TraceID
  SpanID : SpanID
deriving DecidableEq, Repr

/-- A `sdktrace.Status`: the status code is a `uint32`. -/
structure Status where
  Code : Nat
  Description : String
deriving DecidableEq, Repr

/-- What the accessor methods of a `sdktrace.ReadOnlySpan` return; each field is the result
of the method of the same name. `SpanKind` is a Go `int`, as are the three drop counters. -/
structure ReadOnlySpan where
  Name : String
  SpanContext : Otelutil.SpanContext
  Parent : Otelutil.SpanContext
  SpanKind : Int
  StartTime : Time
  EndTime : Time
  Attributes : List KeyValue
  Status : Otelutil.Status
  DroppedAttributes : Int
  DroppedEvents : Int
  DroppedLinks : Int
deriving DecidableEq, Repr

/-! ## Logging -/

/-- The levels of `logrus.Level`. -/
inductive Level where
  | PanicLevel | FatalLevel | ErrorLevel | WarnLevel | InfoLevel | DebugLevel | TraceLevel
deriving DecidableEq, Repr

/-- One record handed to the log: its level and message, its time stamp and its fields. The
logger is taken to let every level through (logrus drops a call below the level the logger
is configured with); hooks and formatting lie outside this development. -/
structure Record where
  Level : Level
  Message : String
  Time : Time
  Data : Fields

/-- The address of a map object. Go maps are reference types. -/
abbrev Addr := Nat

/-- A `logrus.Entry`, reduced to the fields the exporter touches. -/
structure Entry where
  Data : Addr
  Time : Time
deriving DecidableEq, Repr

/-- The part of the program state the exporter acts on. -/
structure World where
  /-- the map objects allocated so far, by address -/
  maps : List Fields
  /-- the entry the package variable `log.L` points to -/
  L : Entry
  /-- the records logged so far, oldest first -/
  out : List Record
  /-- the wall clock: the value of the `n`-th call of `time.Now()` -/
  clock : Nat → Time
  /-- how many times the clock was read so far -/
  ticks : Nat

/-- The map stored at address `a`; an address that holds no map reads as the nil map. -/
def World.mapAt (w : World) (a : Addr) : Fields := w.maps.getD a ∅

/-- Allocation of a map object (`make`): returns its address. The capacity hint of `make` has
no bearing on the content of a map and is left out. -/
def World.makeMap (w : World) (m : Fields) : Addr × World :=
  (w.maps.length, { w with maps := w.maps ++ [m] })

/-- The map assignment `m[k] = v` on the map at address `a`. -/
def World.mapSet (w : World) (a : Addr) (k : String) (v : Value) : World :=
  { w with maps := w.maps.set a ((w.mapAt a).insert k v) }

/-- The method `(*logrus.Entry).Dup`: a new entry over a fresh copy of the data map. Go leaves
the order of a `range` over a map open; the loop is run in the order of `entries`, and
`lookup_copyInto_perm` shows that the order is immaterial. -/
def World.Dup (w : World) (e : Entry) : Entry × World :=
  let (data, w) := w.makeMap ∅
  let w := (w.mapAt e.Data).entries.foldl (fun (w : World) p => w.mapSet data p.1 p.2) w
  ({ Data := data, Time := e.Time }, w)

/-- The method `(*logrus.Entry).Log`: the record carries the entry's fields and the entry's
time, unless that time is the zero `Time` (`IsZero`), in which case logrus stamps the record
with `time.Now()`. -/
def World.Log (w : World) (e : Entry) (level : Level) (msg : String) : World :=
  if e.Time = Time.zero then
    { w with
        out := w.out ++ [{ Level := level, Message := msg, Time := w.clock w.ticks,
                           Data := w.mapAt e.Data }]
        ticks := w.ticks + 1 }
  else
    { w with out := w.out ++ [{ Level := level, Message := msg, Time := e.Time,
                                Data := w.mapAt e.Data }] }

/-- Whether a value is a function; such a value is refused as a field by `WithFields`. -/
def Value.isFunc : Value → Bool
  | Value.method _ => true
  | _ => false

/-- The fields of the entry `logrus.WithFields(fields)` returns: those of `fields` whose value
is not a function. (logrus notes each refused key in the entry's error string, which a
`Record` does not keep.) -/
def WithFields (fields : Fields) : Fields :=
  fields.entries.foldl (fun (d : Fields) p => if p.2.isFunc then d else d.insert p.1 p.2) ∅

/-- The call `logrus.WithFields(fields).Warning(msg)` on the standard logger: a new entry, whose
time is not set and is therefore stamped with `time.Now()`, over the accepted fields. -/
def World.Warning (w : World) (fields : Fields) (msg : String) : World :=
  { w with
      out := w.out ++ [{ Level := Level.WarnLevel, Message := msg, Time := w.clock w.ticks,
                         Data := WithFields fields }]
      ticks := w.ticks + 1 }

/-! ## Constants and helpers the exporter imports -/

/-- The field names of package `internal/logfields` that the exporter uses. The package is
not part of the sources at hand, so the names are parameters of the embedding. -/
structure LogFields where
  Name : String
  TraceID : String
  SpanID : String
  ParentSpanID : String
  StartTime : String
  EndTime : String
  Duration : String
deriving DecidableEq, Repr

/-- What the exporter takes from other packages: the `logfields` names and the helper
`spanKindToString`. -/
structure Env where
  logfields : LogFields
  spanKindToString : Int → String

def spanMessage : String := "Span"

/-- The variable `logrus.ErrorKey`. -/
def ErrorKey : String := "error"

def _errorCodeKey : String := ErrorKey ++ "Code"

/-- The method `String` of `codes.Code` in `google.golang.org/grpc/codes`, which `exportSpan`
applies to the status code: the canonical names of the codes 0 .. 16, and `Code(n)` for any
other `n`. -/
def codeString (c : Nat) : String :=
  match c with
  | 0 => "OK"
  | 1 => "Canceled"
  | 2 => "Unknown"
  | 3 => "InvalidArgument"
  | 4 => "DeadlineExceeded"
  | 5 => "NotFound"
  | 6 => "AlreadyExists"
  | 7 => "PermissionDenied"
  | 8 => "ResourceExhausted"
  | 9 => "FailedPrecondition"
  | 10 => "Aborted"
  | 11 => "OutOfRange"
  | 12 => "Unimplemented"
  | 13 => "Internal"
  | 14 => "Unavailable"
  | 15 => "DataLoss"
  | 16 => "Unauthenticated"
  | n => "Code(" ++ toString n ++ ")"

/-! ## `LogrusExporter` -/

/-- The fields of the warning about dropped data (the map literal of `exportSpan`). -/
def droppedFields (env : Env) (s : ReadOnlySpan) : Fields :=
  let sc := s.SpanContext
  let m : Fields := ∅
  let m := m.insert "name" (Value.method s.Name)
  let m := m.insert env.logfields.TraceID (Value.str sc.TraceID.String)
  let m := m.insert env.logfields.SpanID (Value.str sc.SpanID.String)
  let m := m.insert "droppedAttributers" (Value.int s.DroppedAttributes)
  let m := m.insert "droppedEvents" (Value.int s.DroppedEvents)
  let m := m.insert "droppedLinks" (Value.int s.DroppedLinks)
  let m := m.insert "maxAttributes" (Value.int s.Attributes.length)
  m

/-- The method `(*LogrusExporter).exportSpan`; the receiver is an empty struct. `s.Name`, used
without a call, is the bound method, a value of type `func() string`. -/
def exportSpan (env : Env) (w : World) (s : ReadOnlySpan) : World :=
  let sc := s.SpanContext
  let w :=
    if s.DroppedAttributes > 0 ∨ s.DroppedEvents > 0 ∨ s.DroppedLinks > 0 then
      w.Warning (droppedFields env s) "span had dropped attributes"
    else w
  let (entry, w) := w.Dup w.L
  let (data, w) := w.makeMap ∅
  let w := (w.mapAt entry.Data).entries.foldl (fun (w : World) p => w.mapSet data p.1 p.2) w
  let w := s.Attributes.foldl (fun (w : World) v => w.mapSet data v.Key (Value.attr v.Value)) w
  let w := w.mapSet data env.logfields.Name (Value.method s.Name)
  let w := w.mapSet data env.logfields.TraceID (Value.str sc.TraceID.String)
  let w := w.mapSet data env.logfields.SpanID (Value.str sc.SpanID.String)
  let w := w.mapSet data env.logfields.ParentSpanID (Value.str s.Parent.SpanID.String)
  let w := w.mapSet data env.logfields.StartTime (Value.time s.StartTime)
  let w := w.mapSet data env.logfields.EndTime (Value.time s.EndTime)
  let w := w.mapSet data env.logfields.Duration (Value.duration (s.EndTime.Sub s.StartTime))
  let sk := env.spanKindToString s.SpanKind
  let w := if sk ≠ "" then w.mapSet data "spanKind" (Value.str sk) else w
  let level := if s.Status.Code ≠ 0 then Level.ErrorLevel else Level.InfoLevel
  let w :=
    if s.Status.Code ≠ 0 then
      let w :=
        if ((w.mapAt data).lookup ErrorKey).isNone then
          w.mapSet data ErrorKey (Value.str s.Status.Description)
        else w
      if ((w.mapAt data).lookup _errorCodeKey).isNone then
        w.mapSet data _errorCodeKey (Value.str (codeString s.Status.Code))
      else w
    else w
  let entry := { entry with Data := data }
  let entry := { entry with Time := s.StartTime }
  w.Log entry level spanMessage

/-- A `context.Context`, of which only cancellation is kept; the exporter never reads it. -/
structure Context where
  cancelled : Bool
deriving DecidableEq, Repr

/-- The method `(*LogrusExporter).ExportSpans`; the second component is the returned `error`,
`none` standing for `nil`. -/
def ExportSpans (env : Env) (_ctx : Context) (w : World) (spans : List ReadOnlySpan) :
    World × Option String :=
  let w := spans.foldl (fun (w : World) s => exportSpan env w s) w
  (w, none)

/-- The method `(*LogrusExporter).Shutdown`. -/
def Shutdown (_ctx : Context) (w : World) : World × Option String :=
  (w, none)

/-! ## The exporter without the heap

`spanData` is the content of the map `data` of `exportSpan` when the record is logged,
written as a function of the fields of `log.L`. `exportSpan_eq` below shows that the
heap-manipulating `exportSpan` computes exactly this. -/

/-- The loop `for k, v := range src { dst[k] = v }` on map values. -/
def copyInto (dst : Fields) (src : List (Sigma fun _ : String => Value)) : Fields :=
  src.foldl (fun (m : Fields) p => m.insert p.1 p.2) dst

/-- The loop over `s.Attributes()` on map values. -/
def overlay (dst : Fields) (attrs : List KeyValue) : Fields :=
  attrs.foldl (fun (m : Fields) v => m.insert v.Key (Value.attr v.Value)) dst

/-- The fields of the span record up to and including `spanKind`. -/
def baseData (env : Env) (logger : Fields) (s : ReadOnlySpan) : Fields :=
  let d := copyInto ∅ (copyInto ∅ logger.entries).entries
  let d := overlay d s.Attributes
  let d := d.insert env.logfields.Name (Value.method s.Name)
  let d := d.insert env.logfields.TraceID (Value.str s.SpanContext.TraceID.String)
  let d := d.insert env.logfields.SpanID (Value.str s.SpanContext.SpanID.String)
  let d := d.insert env.logfields.ParentSpanID (Value.str s.Parent.SpanID.String)
  let d := d.insert env.logfields.StartTime (Value.time s.StartTime)
  let d := d.insert env.logfields.EndTime (Value.time s.EndTime)
  let d := d.insert env.logfields.Duration (Value.duration (s.EndTime.Sub s.StartTime))
  if env.spanKindToString s.SpanKind ≠ "" then
    d.insert "spanKind" (Value.str (env.spanKindToString s.SpanKind))
  else d

/-- The guarded assignment `if _, ok := d[k]; !ok { d[k] = v }` on map values. -/
def setIfAbsent (d : Fields) (k : String) (v : Value) : Fields :=
  if (d.lookup k).isNone then d.insert k v else d

/-- The status branch of `exportSpan` on map values. -/
def statusData (d : Fields) (s : ReadOnlySpan) : Fields :=
  if s.Status.Code ≠ 0 then
    setIfAbsent (setIfAbsent d ErrorKey (Value.str s.Status.Description))
      _errorCodeKey (Value.str (codeString s.Status.Code))
  else d

/-- The fields of the span record. -/
def spanData (env : Env) (logger : Fields) (s : ReadOnlySpan) : Fields :=
  statusData (baseData env logger s) s

/-- The level of the span record. -/
def spanLevel (s : ReadOnlySpan) : Level :=
  if s.Status.Code ≠ 0 then Level.ErrorLevel else Level.InfoLevel

/-- The warning `exportSpan` starts with, if any. -/
def warnings (env : Env) (w : World) (s : ReadOnlySpan) : List Record :=
  if s.DroppedAttributes > 0 ∨ s.DroppedEvents > 0 ∨ s.DroppedLinks > 0 then
    [{ Level := Level.WarnLevel, Message := "span had dropped attributes",
       Time := w.clock w.ticks, Data := WithFields (droppedFields env s) }]
  else []

/-- The time stamp of the span record: the span's start time, or the clock's next value if
the start time is the zero `Time`. -/
def spanTime (env : Env) (w : World) (s : ReadOnlySpan) : Time :=
  if s.StartTime = Time.zero then w.clock (w.ticks + (warnings env w s).length)
  else s.StartTime

/-- The number of clock readings after `exportSpan`. -/
def ticksAfter (env : Env) (w : World) (s : ReadOnlySpan) : Nat :=
  if s.StartTime = Time.zero then w.ticks + (warnings env w s).length + 1
  else w.ticks + (warnings env w s).length

/-- The records one call of `exportSpan` adds to the log. -/
def emitted (env : Env) (w : World) (s : ReadOnlySpan) : List Record :=
  (exportSpan env w s).out.drop w.out.length

/-- The span record of one call of `exportSpan`: the last record the call logs. -/
def spanRecord (env : Env) (w : World) (s : ReadOnlySpan) : Option Record :=
  (emitted env w s).getLast?

/-- The `logfields` names `exportSpan` assigns to, in the order of the assignments. -/
def LogFields.names (lf : LogFields) : List String :=
  [lf.Name, lf.TraceID, lf.SpanID, lf.ParentSpanID, lf.StartTime, lf.EndTime, lf.Duration]

/-- Every key `exportSpan` may assign to on its own account. -/
def ownKeys (env : Env) : List String :=
  env.logfields.names ++ ["spanKind", ErrorKey, _errorCodeKey]

/-- The keys `exportSpan` assigns to are pairwise different names. -/
def Env.Distinct (env : Env) : Prop := (ownKeys env).Nodup

instance (env : Env) : Decidable env.Distinct := inferInstanceAs (Decidable (List.Nodup _))

/-- The keys of the map literal of the warning, in the order of the literal. -/
def warningKeys (env : Env) : List String :=
  ["name", env.logfields.TraceID, env.logfields.SpanID, "droppedAttributers", "droppedEvents",
    "droppedLinks", "maxAttributes"]

/-- The keys of the warning's map literal are pairwise different names (Go rejects a map
literal that repeats a constant key). -/
def Env.WarningDistinct (env : Env) : Prop := (warningKeys env).Nodup

instance (env : Env) : Decidable env.WarningDistinct :=
  inferInstanceAs (Decidable (List.Nodup _))

/-- The value of the last attribute whose key is `k`, if there is one. -/
def lastAttr (attrs : List KeyValue) (k : String) : Option AttrValue :=
  ((attrs.filter fun v => v.Key = k).getLast?).map fun v => v.Value

/-- What the map `data` holds under `k` before `exportSpan` assigns to keys of its own: the
value of the last attribute whose key is `k` if there is one, otherwise the field `k` of
`log.L` if it has one. -/
def inherited (logger : Fields) (attrs : List KeyValue) (k : String) : Option Value :=
  match lastAttr attrs k with
  | some v => some (Value.attr v)
  | none => logger.lookup k

/-- Modelled from the spec: the field names of `internal/logfields` and the helper
`spanKindToString` of `internal/otelutil`, neither of which is among the sources at hand.
The names are those of section 4.4 (name, trace-id, span-id, parent-span-id, start-time,
end-time, duration); a span kind other than unspecified maps to its canonical name. The
theorems below hold for every `Env`; this one serves to instantiate them. -/
def specEnv : Env where
  logfields :=
    { Name := "name", TraceID := "trace-id", SpanID := "span-id",
      ParentSpanID := "parent-span-id", StartTime := "start-time", EndTime := "end-time",
      Duration := "duration" }
  spanKindToString := fun k =>
    if k = 1 then "internal" else if k = 2 then "server" else if k = 3 then "client"
    else if k = 4 then "producer" else if k = 5 then "consumer" else ""

/-! ## Sample inputs -/

/-- A wall clock of our days: about 6.39e19 ns (some 2025 years) after the zero `Time`, one
nanosecond further at every reading. -/
def sampleClock : Nat → Time := fun n => ⟨63900000000000000000 + n⟩

/-- A state in which `log.L` has an allocated, empty field map and nothing was logged. -/
def freshWorld : World := ⟨[∅], ⟨0, Time.zero⟩, [], sampleClock, 0⟩

/-- A state in which `log.L` carries the application-wide field `component`. -/
def taggedWorld : World :=
  ⟨[(∅ : Fields).insert "component" (Value.str "shim")], ⟨0, Time.zero⟩, [], sampleClock, 0⟩

def sampleContext : SpanContext := ⟨⟨List.replicate 16 1⟩, ⟨List.replicate 8 2⟩⟩

/-- A span that ended well: status code 0, nothing dropped. -/
def okSpan : ReadOnlySpan where
  Name := "op"
  SpanContext := sampleContext
  Parent := ⟨⟨List.replicate 16 1⟩, ⟨List.replicate 8 3⟩⟩
  SpanKind := 2
  StartTime := ⟨1000⟩
  EndTime := ⟨4500⟩
  Attributes := [⟨"cid", AttrValue.STRING "c1"⟩, ⟨"cid", AttrValue.STRING "c2"⟩]
  Status := ⟨0, ""⟩
  DroppedAttributes := 0
  DroppedEvents := 0
  DroppedLinks := 0

/-- The span of scenario S6: status code 2, description "boom". -/
def boomSpan : ReadOnlySpan := { okSpan with Status := ⟨2, "boom"⟩, Attributes := [] }

/-- The span of scenario S5: two attributes were dropped. -/
def droppedSpan : ReadOnlySpan := { okSpan with DroppedAttributes := 2 }

/-- A span whose start time was never set (the zero `Time`) and which ended one second before
the first reading of `sampleClock`. -/
def zeroStartSpan : ReadOnlySpan :=
  { okSpan with StartTime := Time.zero, EndTime := ⟨63899999999000000000⟩ }

/-- A span whose `DroppedAttributes()` is negative. -/
def negativeDropSpan : ReadOnlySpan := { okSpan with DroppedAttributes := -1 }

end Otelutil

namespace Hcsshim

/-! ## `layer.go` -/

/-- A Go `error` result; `none` is `nil`. -/
abbrev Err := Option String

/-- A `context.Context`; the facade hands it on untouched. -/
structure Context where
  cancelled : Bool
deriving DecidableEq, Repr

structure DriverInfo where
  Flavour : Int
  HomeDir : String
deriving DecidableEq, Repr

/-- `isSlash` of `path/filepath`. -/
def isSlash (c : Char) : Bool := c == '\\' || c == '/'

/-- One round of the loop of `join` in `path/filepath` for Windows (`layer.go` is built for
Windows only): `b` is the builder, `lastChar` its last character. -/
def joinStep (st : String × Char) (e : String) : String × Char :=
  let b := st.1
  let lastChar := st.2
  let r : String × Char × String :=
    if b.length = 0 then
      (b, lastChar, e)
    else if isSlash lastChar then
      let e := String.mk (e.data.dropWhile isSlash)
      let b :=
        if b.length = 1 ∧ e.data.take 2 = ['?', '?'] ∧
            (e.length = 2 ∨ (e.data.drop 2).head?.map isSlash = some true) then
          b ++ ".\\"
        else b
      (b, lastChar, e)
    else if lastChar = ':' then
      (b, lastChar, e)
    else
      (b.push '\\', '\\', e)
  let b := r.1
  let lastChar := r.2.1
  let e := r.2.2
  if e.length > 0 then (b ++ e, e.data.getLastD lastChar) else (b, lastChar)

/-- `filepath.Join` for Windows. `Clean` is `filepath.Clean`, which the embedding leaves as a
parameter. Empty elements are ignored, the elements are joined by the separator, and the
result is cleaned; if all elements are empty the result is the empty string. -/
def Join (Clean : String → String) (elem : List String) : String :=
  let b := (elem.foldl joinStep ("", Char.ofNat 0)).1
  if b.length = 0 then "" else Clean b

/-- The last character of a string, if it has one. -/
def lastChar? (s : String) : Option Char := s.data.getLast?

def layerPath (Clean : String → String) (info : DriverInfo) (id : String) : String :=
  Join Clean [info.HomeDir, id]

/-- The functions of package `internal/wclayer` that the facade calls. The package is not
among the sources at hand; its functions are parameters of the embedding. `Reader` and
`Writer` stand for `wclayer.LayerReader` and `wclayer.LayerWriter`. -/
structure WCLayer (Reader Writer : Type) where
  ActivateLayer : Context → String → Err
  CreateLayer : Context → String → String → Err
  CreateScratchLayer : Context → String → List String → Err
  DeactivateLayer : Context → String → Err
  DestroyLayer : Context → String → Err
  ExpandScratchSize : Context → String → Nat → Err
  ExportLayer : Context → String → String → List String → Err
  GetLayerMountPath : Context → String → String × Err
  GetSharedBaseImages : Context → String × Err
  ImportLayer : Context → String → String → List String → Err
  LayerExists : Context → String → Bool × Err
  PrepareLayer : Context → String → List String → Err
  ProcessBaseLayer : Context → String → Err
  ProcessUtilityVMImage : Context → String → Err
  UnprepareLayer : Context → String → Err
  ConvertToBaseLayer : Context → String → Err
  NewLayerReader : Context → String → List String → Option Reader × Err
  NewLayerWriter : Context → String → List String → Option Writer × Err

section Facade

variable {Reader Writer : Type} (wclayer : WCLayer Reader Writer) (Clean : String → String)

def ActivateLayer (ctx : Context) (info : DriverInfo) (id : String) : Err :=
  wclayer.ActivateLayer ctx (layerPath Clean info id)

def CreateLayer (ctx : Context) (info : DriverInfo) (id parent : String) : Err :=
  wclayer.CreateLayer ctx (layerPath Clean info id) parent

def CreateSandboxLayer (ctx : Context) (info : DriverInfo) (layerId _parentId : String)
    (parentLayerPaths : List String) : Err :=
  wclayer.CreateScratchLayer ctx (layerPath Clean info layerId) parentLayerPaths

def CreateScratchLayer (ctx : Context) (info : DriverInfo) (layerId _parentId : String)
    (parentLayerPaths : List String) : Err :=
  wclayer.CreateScratchLayer ctx (layerPath Clean info layerId) parentLayerPaths

def DeactivateLayer (ctx : Context) (info : DriverInfo) (id : String) : Err :=
  wclayer.DeactivateLayer ctx (layerPath Clean info id)

def DestroyLayer (ctx : Context) (info : DriverInfo) (id : String) : Err :=
  wclayer.DestroyLayer ctx (layerPath Clean info id)

def ExpandSandboxSize (ctx : Context) (info : DriverInfo) (layerId : String) (size : Nat) :
    Err :=
  wclayer.ExpandScratchSize ctx (layerPath Clean info layerId) size

def ExpandScratchSize (ctx : Context) (info : DriverInfo) (layerId : String) (size : Nat) :
    Err :=
  wclayer.ExpandScratchSize ctx (layerPath Clean info layerId) size

def ExportLayer (ctx : Context) (info : DriverInfo) (layerId exportFolderPath : String)
    (parentLayerPaths : List String) : Err :=
  wclayer.ExportLayer ctx (layerPath Clean info layerId) exportFolderPath parentLayerPaths

def GetLayerMountPath (ctx : Context) (info : DriverInfo) (id : String) : String × Err :=
  wclayer.GetLayerMountPath ctx (layerPath Clean info id)

def GetSharedBaseImages (ctx : Context) : String × Err :=
  wclayer.GetSharedBaseImages ctx

def ImportLayer (ctx : Context) (info : DriverInfo) (layerID importFolderPath : String)
    (parentLayerPaths : List String) : Err :=
  wclayer.ImportLayer ctx (layerPath Clean info layerID) importFolderPath parentLayerPaths

def LayerExists (ctx : Context) (info : DriverInfo) (id : String) : Bool × Err :=
  wclayer.LayerExists ctx (layerPath Clean info id)

def PrepareLayer (ctx : Context) (info : DriverInfo) (layerId : String)
    (parentLayerPaths : List String) : Err :=
  wclayer.PrepareLayer ctx (layerPath Clean info layerId) parentLayerPaths

def ProcessBaseLayer (ctx : Context) (path : String) : Err :=
  wclayer.ProcessBaseLayer ctx path

def ProcessUtilityVMImage (ctx : Context) (path : String) : Err :=
  wclayer.ProcessUtilityVMImage ctx path

def UnprepareLayer (ctx : Context) (info : DriverInfo) (layerId : String) : Err :=
  wclayer.UnprepareLayer ctx (layerPath Clean info layerId)

def ConvertToBaseLayer (ctx : Context) (path : String) : Err :=
  wclayer.ConvertToBaseLayer ctx path

def NewLayerReader (ctx : Context) (info : DriverInfo) (layerID : String)
    (parentLayerPaths : List String) : Option Reader × Err :=
  wclayer.NewLayerReader ctx (layerPath Clean info layerID) parentLayerPaths

def NewLayerWriter (ctx : Context) (info : DriverInfo) (layerID : String)
    (parentLayerPaths : List String) : Option Writer × Err :=
  wclayer.NewLayerWriter ctx (layerPath Clean info layerID) parentLayerPaths

end Facade

/-- A layer subsystem that answers every call with the path it was handed, so that the path
a facade function forwards can be read off its result. -/
def echoLayer : WCLayer String String where
  ActivateLayer := fun _ p => some p
  CreateLayer := fun _ p _ => some p
  CreateScratchLayer := fun _ p _ => some p
  DeactivateLayer := fun _ p => some p
  DestroyLayer := fun _ p => some p
  ExpandScratchSize := fun _ p _ => some p
  ExportLayer := fun _ p _ _ => some p
  GetLayerMountPath := fun _ p => (p, none)
  GetSharedBaseImages := fun _ => ("", none)
  ImportLayer := fun _ p _ _ => some p
  LayerExists := fun _ p => (true, some p)
  PrepareLayer := fun _ p _ => some p
  ProcessBaseLayer := fun _ p => some p
  ProcessUtilityVMImage := fun _ p => some p
  UnprepareLayer := fun _ p => some p
  ConvertToBaseLayer := fun _ p => some p
  NewLayerReader := fun _ p _ => (some p, none)
  NewLayerWriter := fun _ p _ => (some p, none)

/-! ## `GUID` -/

/-- The result of `sha1.Sum`, a `[20]byte`. -/
structure Digest where
  bytes : List UInt8
  size : bytes.length = 20

/-- The type `GUID`, a `[16]byte`, as the list of its bytes. -/
abbrev GUID := List UInt8

/-- The built-in `copy(dst, src)` on slices: the first `min (len dst) (len src)` elements of
`dst` are overwritten with those of `src`. The result is `dst` after the call. -/
def copy (dst src : List UInt8) : List UInt8 :=
  let n := min dst.length src.length
  src.take n ++ dst.drop n

/-- The function `NewGUID`. A Go string is a sequence of bytes, so `source` is given as its
bytes and `[]byte(source)` is `source`. `sum` is `sha1.Sum` of `crypto/sha1`, a parameter of
the embedding. The slices `g[0:]` and `h[0:16]` are `drop 0` and `take 16` after `drop 0`. -/
def NewGUID (sum : List UInt8 → Digest) (source : List UInt8) : GUID :=
  let h := sum source
  let g : GUID := List.replicate 16 0
  copy (g.drop 0) ((h.bytes.drop 0).take 16)

end Hcsshim

namespace Hcsshim

/-! ## `Container`

`interface.go` declares the interface `Container`; the type that implements it is not among
the sources at hand. The lifecycle below follows sections 3, 4.1 and 4.3 of the
specification. -/

/-- Modelled from the spec: the lifecycle states of a compute system (section 3), the
implementation of `Container` being absent from the sources: Created, Running, Paused,
ShuttingDown, Terminating, Stopped, Closed. -/
inductive State where
  | Created | Running | Paused | ShuttingDown | Terminating | Stopped | Closed
deriving DecidableEq, Repr

/-- Modelled from the spec: the error kinds (section 7) that `Start` and `Close` of the absent
`Container` implementation can return. -/
inductive ContainerError where
  | AlreadyStarted
  | Closed
  | NativeFailure (code : Int) (message : String)
deriving DecidableEq, Repr

/-- Modelled from the spec: how the wait channel of the absent `Container` implementation
completes: with the termination result, or with "handle closed" (section 4.3, step 1). -/
inductive WaitResult where
  | terminated (err : Option String)
  | handleClosed
deriving DecidableEq, Repr

/-- Modelled from the spec: the wrapper over a compute-system handle (sections 3 and 4.3),
standing for the absent implementation of `Container`. `handle` is the native handle, `none`
once released; `released` counts the calls of the native bridge's `close`; `waitResult` is
the completion of the wait channel, `none` while no result was delivered. -/
structure Container where
  id : String
  state : State
  handle : Option Nat
  released : Nat
  waitResult : Option WaitResult
deriving DecidableEq, Repr

/-- Modelled from the spec: `Close` of the absent `Container` implementation (section 4.3).
The first `Close` completes an outstanding wait with "handle closed", releases the native
handle and marks the wrapper Closed; a later `Close` is a no-op. Every call succeeds. -/
def Container.Close (c : Container) : Container × Option ContainerError :=
  if c.state = State.Closed then (c, none)
  else
    ({ c with
        waitResult := match c.waitResult with
          | none => some WaitResult.handleClosed
          | some r => some r
        handle := none
        released := c.released + 1
        state := State.Closed }, none)

/-- Modelled from the spec: `Start` of the absent `Container` implementation (section 4.1). A
Closed wrapper fails with Closed; otherwise `Start` needs the state Created, asks the native
bridge (`nativeStart`, `none` for success) and on success moves to Running. -/
def Container.Start (nativeStart : Option Nat → Option (Int × String)) (c : Container) :
    Container × Option ContainerError :=
  match c.state with
  | State.Closed => (c, some ContainerError.Closed)
  | State.Created =>
    match nativeStart c.handle with
    | none => ({ c with state := State.Running }, none)
    | some (code, message) => (c, some (ContainerError.NativeFailure code message))
  | _ => (c, some ContainerError.AlreadyStarted)

/-- A sequence of `n` calls of `Close`: the final wrapper and the result of each call. -/
def closeTimes : Nat → Container → Container × List (Option ContainerError)
  | 0, c => (c, [])
  | n + 1, c =>
    let step := c.Close
    let rest := closeTimes n step.1
    (rest.1, step.2 :: rest.2)

/-- Modelled from the spec: a newly created container (state Created, handle held). -/
def Container.create (id : String) (handle : Nat) : Container :=
  { id := id, state := State.Created, handle := some handle, released := 0,
    waitResult := none }

end Hcsshim

/-! # Theorems -/

namespace Otelutil

/-! ## Heap lemmas -/

theorem mapAt_append_one (M : List Fields) (c : Fields) (L : Entry) (out : List Record) (clk : Nat → Time) (tk : Nat) :
    World.mapAt ⟨M ++ [c], L, out, clk, tk⟩ M.length = c := by
  simp [World.mapAt, List.getD_eq_getElem?_getD]

theorem mapAt_append_two (M : List Fields) (c d : Fields) (L : Entry) (out : List Record) (clk : Nat → Time) (tk : Nat) :
    World.mapAt ⟨M ++ [c, d], L, out, clk, tk⟩ (M.length + 1) = d := by
  simp only [World.mapAt, List.getD_eq_getElem?_getD]
  rw [List.getElem?_append_right (Nat.le_succ _)]
  simp

theorem mapAt_append_two_fst (M : List Fields) (c d : Fields) (L : Entry) (out : List Record) (clk : Nat → Time) (tk : Nat) :
    World.mapAt ⟨M ++ [c, d], L, out, clk, tk⟩ M.length = c := by
  simp only [World.mapAt, List.getD_eq_getElem?_getD]
  rw [List.getElem?_append_right (Nat.le_refl _)]
  simp

theorem mapAt_append_empty (M : List Fields) (L : Entry) (out : List Record) (clk : Nat → Time) (tk : Nat) (a : Addr) :
    World.mapAt ⟨M ++ [∅], L, out, clk, tk⟩ a = World.mapAt ⟨M, L, out, clk, tk⟩ a := by
  simp only [World.mapAt, List.getD_eq_getElem?_getD, List.getElem?_append]
  split
  · rfl
  · rename_i h
    rw [List.getElem?_eq_none (Nat.le_of_not_lt h)]
    rcases Nat.eq_zero_or_pos (a - M.length) with h0 | h0
    · simp [h0]
    · rw [List.getElem?_eq_none (by simpa using Nat.succ_le_of_lt h0)]

theorem mapSet_append_one (M : List Fields) (c : Fields) (L : Entry) (out : List Record) (clk : Nat → Time) (tk : Nat)
    (k : String) (v : Value) :
    World.mapSet ⟨M ++ [c], L, out, clk, tk⟩ M.length k v = ⟨M ++ [c.insert k v], L, out, clk, tk⟩ := by
  simp [World.mapSet, mapAt_append_one, List.set_append]

theorem mapSet_append_two (M : List Fields) (c d : Fields) (L : Entry) (out : List Record) (clk : Nat → Time) (tk : Nat)
    (k : String) (v : Value) :
    World.mapSet ⟨M ++ [c, d], L, out, clk, tk⟩ (M.length + 1) k v
      = ⟨M ++ [c, d.insert k v], L, out, clk, tk⟩ := by
  simp [World.mapSet, mapAt_append_two, List.set_append]

theorem foldl_mapSet_one {α : Type} (fk : α → String) (fv : α → Value) (l : List α)
    (M : List Fields) (c : Fields) (L : Entry) (out : List Record) (clk : Nat → Time) (tk : Nat) :
    l.foldl (fun (w : World) x => w.mapSet M.length (fk x) (fv x)) ⟨M ++ [c], L, out, clk, tk⟩
      = ⟨M ++ [l.foldl (fun (m : Fields) x => m.insert (fk x) (fv x)) c], L, out, clk, tk⟩ := by
  induction l generalizing c with
  | nil => rfl
  | cons x l ih => simp only [List.foldl_cons, mapSet_append_one, ih]

theorem foldl_mapSet_two {α : Type} (fk : α → String) (fv : α → Value) (l : List α)
    (M : List Fields) (c d : Fields) (L : Entry) (out : List Record) (clk : Nat → Time) (tk : Nat) :
    l.foldl (fun (w : World) x => w.mapSet (M.length + 1) (fk x) (fv x)) ⟨M ++ [c, d], L, out, clk, tk⟩
      = ⟨M ++ [c, l.foldl (fun (m : Fields) x => m.insert (fk x) (fv x)) d], L, out, clk, tk⟩ := by
  induction l generalizing d with
  | nil => rfl
  | cons x l ih => simp only [List.foldl_cons, mapSet_append_two, ih]

theorem Dup_eq (M : List Fields) (L : Entry) (out : List Record) (clk : Nat → Time) (tk : Nat) (e : Entry) :
    World.Dup ⟨M, L, out, clk, tk⟩ e
      = (⟨M.length, e.Time⟩,
          ⟨M ++ [copyInto ∅ (World.mapAt ⟨M, L, out, clk, tk⟩ e.Data).entries], L, out, clk, tk⟩) := by
  have h := foldl_mapSet_one (fun p : (Sigma fun _ : String => Value) => p.1) (fun p => p.2)
    (World.mapAt ⟨M, L, out, clk, tk⟩ e.Data).entries M ∅ L out clk tk
  simp only [World.Dup, World.makeMap, mapAt_append_empty, h, copyInto]

theorem makeMap_append_one (M : List Fields) (c : Fields) (L : Entry) (out : List Record) (clk : Nat → Time) (tk : Nat) :
    World.makeMap ⟨M ++ [c], L, out, clk, tk⟩ ∅ = (M.length + 1, ⟨M ++ [c, ∅], L, out, clk, tk⟩) := by
  simp [World.makeMap]

theorem ite_world (p : Prop) [Decidable p] (M : List Fields) (c d₁ d₂ : Fields) (L : Entry)
    (out : List Record) (clk : Nat → Time) (tk : Nat) :
    (if p then (⟨M ++ [c, d₁], L, out, clk, tk⟩ : World) else ⟨M ++ [c, d₂], L, out, clk, tk⟩)
      = ⟨M ++ [c, if p then d₁ else d₂], L, out, clk, tk⟩ := by
  split <;> rfl

/-- The heap-manipulating `exportSpan` allocates two maps, leaves everything else on the heap
and `log.L` as they are, and logs the optional warning followed by the span record. -/
theorem exportSpan_eq (env : Env) (w : World) (s : ReadOnlySpan) :
    exportSpan env w s
      = ⟨w.maps ++ [copyInto ∅ (w.mapAt w.L.Data).entries, spanData env (w.mapAt w.L.Data) s],
          w.L,
          w.out ++ warnings env w s ++
            [⟨spanLevel s, spanMessage, spanTime env w s, spanData env (w.mapAt w.L.Data) s⟩],
          w.clock, ticksAfter env w s⟩ := by
  obtain ⟨M, L, out, clk, tk⟩ := w
  have hA := foldl_mapSet_two (fun p : (Sigma fun _ : String => Value) => p.1) (fun p => p.2)
  have hB := foldl_mapSet_two (fun v : KeyValue => v.Key) (fun v => Value.attr v.Value)
  have hm : ∀ (o : List Record) (t : Nat) (a : Addr),
      World.mapAt ⟨M, L, o, clk, t⟩ a = World.mapAt ⟨M, L, out, clk, tk⟩ a := fun _ _ _ => rfl
  by_cases hd : s.DroppedAttributes > 0 ∨ s.DroppedEvents > 0 ∨ s.DroppedLinks > 0 <;>
  by_cases hz : s.StartTime = Time.zero <;>
  simp only [exportSpan, World.Warning, hd, hz, if_true, if_false, Dup_eq, makeMap_append_one,
    mapAt_append_two_fst, hA, hB, mapSet_append_two, mapAt_append_two, ite_world, World.Log,
    hm, spanData, statusData, setIfAbsent, baseData, spanLevel, copyInto, overlay, warnings,
    spanTime, ticksAfter, List.length_singleton, List.length_nil, List.append_nil,
    Nat.add_zero, List.append_assoc]

theorem emitted_eq (env : Env) (w : World) (s : ReadOnlySpan) :
    emitted env w s = warnings env w s ++
      [⟨spanLevel s, spanMessage, spanTime env w s, spanData env (w.mapAt w.L.Data) s⟩] := by
  simp [emitted, exportSpan_eq, List.append_assoc]

theorem spanRecord_eq (env : Env) (w : World) (s : ReadOnlySpan) :
    spanRecord env w s
      = some ⟨spanLevel s, spanMessage, spanTime env w s,
          spanData env (w.mapAt w.L.Data) s⟩ := by
  simp [spanRecord, emitted_eq]

/-- A field survives `WithFields` exactly when its value is not a function. -/
theorem lookup_WithFields_aux (l : List (Sigma fun _ : String => Value)) (h : l.NodupKeys)
    (d : Fields) (k : String) :
    (l.foldl (fun (d : Fields) p => if p.2.isFunc then d else d.insert p.1 p.2) d).lookup k
      = match l.dlookup k with
        | some v => if v.isFunc then d.lookup k else some v
        | none => d.lookup k := by
  induction l generalizing d with
  | nil => rfl
  | cons x l ih =>
    obtain ⟨a, b⟩ := x
    rw [List.nodupKeys_cons] at h
    rw [List.foldl_cons, ih h.2]
    by_cases hk : k = a
    · subst hk
      rw [List.dlookup_eq_none.mpr h.1, List.dlookup_cons_eq]
      by_cases hf : b.isFunc
      · simp [hf]
      · simp [hf, AList.lookup_insert]
    · rw [List.dlookup_cons_ne l ⟨a, b⟩ hk]
      have hd : (if b.isFunc then d else d.insert a b).lookup k = d.lookup k := by
        split
        · rfl
        · rw [AList.lookup_insert_ne hk]
      simp only [hd]

theorem lookup_WithFields (fields : Fields) (k : String) (v : Value)
    (h : fields.lookup k = some v) (hv : v.isFunc = false) :
    (WithFields fields).lookup k = some v := by
  have hl : fields.entries.dlookup k = some v := h
  unfold WithFields
  rw [lookup_WithFields_aux _ fields.nodupKeys, hl]
  simp [hv]

/-! ## Lookups in the fields of the span record -/

theorem lookup_copyInto (l : List (Sigma fun _ : String => Value)) (h : l.NodupKeys)
    (d : Fields) (k : String) :
    (copyInto d l).lookup k = (l.dlookup k).or (d.lookup k) := by
  induction l generalizing d with
  | nil => simp [copyInto]
  | cons x l ih =>
    obtain ⟨a, b⟩ := x
    rw [List.nodupKeys_cons] at h
    have hstep : copyInto d (⟨a, b⟩ :: l) = copyInto (d.insert a b) l := rfl
    rw [hstep, ih h.2]
    by_cases hk : k = a
    · subst hk
      rw [List.dlookup_eq_none.mpr h.1, AList.lookup_insert, List.dlookup_cons_eq]
      rfl
    · rw [AList.lookup_insert_ne hk, List.dlookup_cons_ne l ⟨a, b⟩ hk]

/-- The order in which the entries of a map are copied does not matter. -/
theorem lookup_copyInto_perm (m : Fields) (l : List (Sigma fun _ : String => Value))
    (hp : l.Perm m.entries) (d : Fields) (k : String) :
    (copyInto d l).lookup k = (copyInto d m.entries).lookup k := by
  have hnd : l.NodupKeys := (List.perm_nodupKeys hp).mpr m.nodupKeys
  rw [lookup_copyInto l hnd, lookup_copyInto _ m.nodupKeys,
    List.perm_dlookup k hnd m.nodupKeys hp]

theorem lookup_copy_copy (m : Fields) (k : String) :
    (copyInto ∅ (copyInto ∅ m.entries).entries).lookup k = m.lookup k := by
  rw [lookup_copyInto _ (copyInto ∅ m.entries).nodupKeys]
  have h1 : (copyInto ∅ m.entries).entries.dlookup k = (copyInto ∅ m.entries).lookup k := rfl
  rw [h1, lookup_copyInto _ m.nodupKeys]
  have h2 : m.entries.dlookup k = m.lookup k := rfl
  rw [h2, AList.lookup_empty]
  cases m.lookup k <;> rfl

theorem lastAttr_cons (x : KeyValue) (l : List KeyValue) (k : String) :
    lastAttr (x :: l) k
      = (lastAttr l k).or (if x.Key = k then some x.Value else none) := by
  unfold lastAttr
  by_cases hk : x.Key = k
  · rw [List.filter_cons_of_pos (by simpa using hk), List.getLast?_cons, if_pos hk]
    cases (List.filter (fun v => decide (v.Key = k)) l).getLast? <;> rfl
  · rw [List.filter_cons_of_neg (by simpa using hk), if_neg hk]
    cases (List.filter (fun v => decide (v.Key = k)) l).getLast? <;> rfl

theorem lookup_overlay (attrs : List KeyValue) (d : Fields) (k : String) :
    (overlay d attrs).lookup k = ((lastAttr attrs k).map Value.attr).or (d.lookup k) := by
  induction attrs generalizing d with
  | nil => simp [overlay, lastAttr]
  | cons x l ih =>
    have hstep : overlay d (x :: l) = overlay (d.insert x.Key (Value.attr x.Value)) l := rfl
    rw [hstep, ih, lastAttr_cons]
    by_cases hk : x.Key = k
    · subst hk
      rw [AList.lookup_insert]
      cases lastAttr l x.Key <;> simp
    · rw [AList.lookup_insert_ne (Ne.symm hk)]
      cases lastAttr l k <;> simp [hk]

theorem lookup_baseData_frame (env : Env) (logger : Fields) (s : ReadOnlySpan) (k : String)
    (hk : k ∉ env.logfields.names) (hs : k ≠ "spanKind") :
    (baseData env logger s).lookup k
      = ((lastAttr s.Attributes k).map Value.attr).or (logger.lookup k) := by
  simp only [LogFields.names, List.mem_cons, List.mem_singleton, not_or, List.not_mem_nil,
    not_false_eq_true, and_true] at hk
  obtain ⟨h1, h2, h3, h4, h5, h6, h7⟩ := hk
  unfold baseData
  split
  · simp only [AList.lookup_insert_ne hs, AList.lookup_insert_ne h1, AList.lookup_insert_ne h2,
      AList.lookup_insert_ne h3, AList.lookup_insert_ne h4, AList.lookup_insert_ne h5,
      AList.lookup_insert_ne h6, AList.lookup_insert_ne h7, lookup_overlay, lookup_copy_copy]
  · simp only [AList.lookup_insert_ne h1, AList.lookup_insert_ne h2,
      AList.lookup_insert_ne h3, AList.lookup_insert_ne h4, AList.lookup_insert_ne h5,
      AList.lookup_insert_ne h6, AList.lookup_insert_ne h7, lookup_overlay, lookup_copy_copy]

theorem lookup_baseData_own (env : Env) (logger : Fields) (s : ReadOnlySpan)
    (h : env.Distinct) :
    (baseData env logger s).lookup env.logfields.Name = some (Value.method s.Name) ∧
    (baseData env logger s).lookup env.logfields.TraceID
      = some (Value.str s.SpanContext.TraceID.String) ∧
    (baseData env logger s).lookup env.logfields.SpanID
      = some (Value.str s.SpanContext.SpanID.String) ∧
    (baseData env logger s).lookup env.logfields.ParentSpanID
      = some (Value.str s.Parent.SpanID.String) ∧
    (baseData env logger s).lookup env.logfields.StartTime = some (Value.time s.StartTime) ∧
    (baseData env logger s).lookup env.logfields.EndTime = some (Value.time s.EndTime) ∧
    (baseData env logger s).lookup env.logfields.Duration
      = some (Value.duration (s.EndTime.Sub s.StartTime)) := by
  simp only [Env.Distinct, ownKeys, LogFields.names, List.cons_append, List.nil_append,
    List.nodup_cons, List.mem_cons, List.mem_singleton, not_or, List.not_mem_nil,
    not_false_eq_true, and_true, List.nodup_nil] at h
  obtain ⟨⟨a1, a2, a3, a4, a5, a6, a7, -, -⟩, ⟨b2, b3, b4, b5, b6, b7, -, -⟩,
    ⟨c3, c4, c5, c6, c7, -, -⟩, ⟨d4, d5, d6, d7, -, -⟩, ⟨e5, e6, e7, -, -⟩,
    ⟨f6, f7, -, -⟩, ⟨g7, -, -⟩, -⟩ := h
  unfold baseData
  split <;>
  simp [AList.lookup_insert, AList.lookup_insert_ne, *]

theorem lookup_setIfAbsent (d : Fields) (k k' : String) (v : Value) :
    (setIfAbsent d k v).lookup k'
      = if k' = k then some ((d.lookup k).getD v) else d.lookup k' := by
  unfold setIfAbsent
  by_cases hk : k' = k
  · subst hk
    rw [if_pos rfl]
    cases h : d.lookup k' with
    | none => simp [AList.lookup_insert]
    | some x => simp [h]
  · rw [if_neg hk]
    split
    · rw [AList.lookup_insert_ne hk]
    · rfl

theorem errorCodeKey_ne : _errorCodeKey ≠ ErrorKey := by decide

theorem lookup_statusData_of_some (d : Fields) (s : ReadOnlySpan) (k : String) (v : Value)
    (h : d.lookup k = some v) : (statusData d s).lookup k = some v := by
  unfold statusData
  split
  · have step : ∀ (d : Fields) (k' : String) (v' : Value), d.lookup k = some v →
        (setIfAbsent d k' v').lookup k = some v := by
      intro d k' v' hd
      rw [lookup_setIfAbsent]
      split
      · rename_i hk
        rw [← hk, hd]
        rfl
      · exact hd
    exact step _ _ _ (step _ _ _ h)
  · exact h

theorem lookup_statusData_frame (d : Fields) (s : ReadOnlySpan) (k : String)
    (h1 : k ≠ ErrorKey) (h2 : k ≠ _errorCodeKey) :
    (statusData d s).lookup k = d.lookup k := by
  unfold statusData
  split
  · simp only [lookup_setIfAbsent, if_neg h1, if_neg h2]
  · rfl

theorem lookup_statusData_error (d : Fields) (s : ReadOnlySpan) (hc : s.Status.Code ≠ 0) :
    (statusData d s).lookup ErrorKey
      = some ((d.lookup ErrorKey).getD (Value.str s.Status.Description)) := by
  unfold statusData
  rw [if_pos hc]
  simp only [lookup_setIfAbsent, if_neg errorCodeKey_ne.symm, if_true]

theorem lookup_statusData_errorCode (d : Fields) (s : ReadOnlySpan) (hc : s.Status.Code ≠ 0) :
    (statusData d s).lookup _errorCodeKey
      = some ((d.lookup _errorCodeKey).getD (Value.str (codeString s.Status.Code))) := by
  unfold statusData
  rw [if_pos hc]
  simp only [lookup_setIfAbsent, if_neg errorCodeKey_ne, if_true]

theorem or_map_eq_inherited (logger : Fields) (attrs : List KeyValue) (k : String) :
    ((lastAttr attrs k).map Value.attr).or (logger.lookup k) = inherited logger attrs k := by
  unfold inherited
  cases lastAttr attrs k <;> rfl

theorem lastAttr_eq_none (attrs : List KeyValue) (k : String)
    (h : ∀ a ∈ attrs, a.Key ≠ k) : lastAttr attrs k = none := by
  induction attrs with
  | nil => rfl
  | cons x l ih =>
    rw [lastAttr_cons, ih (fun a ha => h a (List.mem_cons_of_mem _ ha)),
      if_neg (h x (List.mem_cons_self _ _))]
    rfl

theorem inherited_eq_none (logger : Fields) (attrs : List KeyValue) (k : String)
    (h : ∀ a ∈ attrs, a.Key ≠ k) (hl : k ∉ logger) : inherited logger attrs k = none := by
  unfold inherited
  rw [lastAttr_eq_none attrs k h]
  exact AList.lookup_eq_none.mpr hl

/-- A key that is none of the `logfields` names and not `spanKind` holds in the span record
what `statusData` makes of the inherited value. -/
theorem lookup_spanData_frame (env : Env) (logger : Fields) (s : ReadOnlySpan) (k : String)
    (hk : k ∉ env.logfields.names) (hs : k ≠ "spanKind") :
    (baseData env logger s).lookup k = inherited logger s.Attributes k := by
  rw [lookup_baseData_frame env logger s k hk hs, or_map_eq_inherited]

theorem lookup_baseData_Duration (env : Env) (logger : Fields) (s : ReadOnlySpan)
    (hd : env.logfields.Duration ≠ "spanKind") :
    (baseData env logger s).lookup env.logfields.Duration
      = some (Value.duration (s.EndTime.Sub s.StartTime)) := by
  unfold baseData
  split
  · rw [AList.lookup_insert_ne hd, AList.lookup_insert]
  · rw [AList.lookup_insert]

theorem errorKey_eq : ErrorKey = "error" := rfl

theorem errorCodeKey_eq : _errorCodeKey = "errorCode" := by decide

end Otelutil

namespace Otelutil

/-! ## The exporter: C1 .. C7 -/

/-- C1: the span record of every exported span is logged at Info level exactly when the
status code is 0 and at Error level exactly when it is not; for a non-zero status code the
record's fields contain the keys "error" and "errorCode". -/
theorem exportSpan_level_iff_status (env : Env) (w : World) (s : ReadOnlySpan) :
    ∃ r, spanRecord env w s = some r ∧ r.Message = "Span" ∧
      (r.Level = Level.InfoLevel ↔ s.Status.Code = 0) ∧
      (r.Level = Level.ErrorLevel ↔ s.Status.Code ≠ 0) ∧
      (s.Status.Code ≠ 0 → "error" ∈ r.Data ∧ "errorCode" ∈ r.Data) := by
  refine ⟨_, spanRecord_eq env w s, rfl, ?_, ?_, ?_⟩
  · by_cases h : s.Status.Code = 0 <;> simp [spanLevel, h]
  · by_cases h : s.Status.Code = 0 <;> simp [spanLevel, h]
  · intro hc
    have hkey : _errorCodeKey = "errorCode" := by decide
    constructor
    · rw [← AList.lookup_isSome]
      show (AList.lookup ErrorKey (statusData _ s)).isSome = true
      rw [lookup_statusData_error _ s hc]
      rfl
    · rw [← AList.lookup_isSome, ← hkey]
      show (AList.lookup _errorCodeKey (statusData _ s)).isSome = true
      rw [lookup_statusData_errorCode _ s hc]
      rfl

/-- C2: for a span with a non-zero status code, and names of `logfields` other than "error"
and "errorCode": if neither the span's attributes nor the fields of `log.L` contain "error",
the record has error = the status description; a value already there under "error" (the last
attribute of that key, else the field of `log.L`) is kept; likewise for "errorCode" with
the canonical name of the code. In particular status code 2 with description "boom" and no
such keys gives Error level, error = "boom" and errorCode = "Unknown". -/
theorem exportSpan_error_fields (env : Env) (w : World) (s : ReadOnlySpan)
    (hc : s.Status.Code ≠ 0) (he : "error" ∉ env.logfields.names)
    (hec : "errorCode" ∉ env.logfields.names) :
    ∃ r, spanRecord env w s = some r ∧ r.Level = Level.ErrorLevel ∧
      ((∀ a ∈ s.Attributes, a.Key ≠ "error") → "error" ∉ w.mapAt w.L.Data →
        r.Data.lookup "error" = some (Value.str s.Status.Description)) ∧
      (∀ v, inherited (w.mapAt w.L.Data) s.Attributes "error" = some v →
        r.Data.lookup "error" = some v) ∧
      ((∀ a ∈ s.Attributes, a.Key ≠ "errorCode") → "errorCode" ∉ w.mapAt w.L.Data →
        r.Data.lookup "errorCode" = some (Value.str (codeString s.Status.Code))) ∧
      (∀ v, inherited (w.mapAt w.L.Data) s.Attributes "errorCode" = some v →
        r.Data.lookup "errorCode" = some v) ∧
      (s.Status = ⟨2, "boom"⟩ →
        (∀ a ∈ s.Attributes, a.Key ≠ "error" ∧ a.Key ≠ "errorCode") →
        "error" ∉ w.mapAt w.L.Data → "errorCode" ∉ w.mapAt w.L.Data →
        r.Data.lookup "error" = some (Value.str "boom") ∧
        r.Data.lookup "errorCode" = some (Value.str "Unknown")) := by
  have h1 : (spanData env (w.mapAt w.L.Data) s).lookup "error"
      = some ((inherited (w.mapAt w.L.Data) s.Attributes "error").getD
          (Value.str s.Status.Description)) := by
    have := lookup_statusData_error (baseData env (w.mapAt w.L.Data) s) s hc
    rw [errorKey_eq, lookup_spanData_frame env _ s "error" he (by decide)] at this
    exact this
  have h2 : (spanData env (w.mapAt w.L.Data) s).lookup "errorCode"
      = some ((inherited (w.mapAt w.L.Data) s.Attributes "errorCode").getD
          (Value.str (codeString s.Status.Code))) := by
    have := lookup_statusData_errorCode (baseData env (w.mapAt w.L.Data) s) s hc
    rw [errorCodeKey_eq, lookup_spanData_frame env _ s "errorCode" hec (by decide)] at this
    exact this
  refine ⟨_, spanRecord_eq env w s, ?_, ?_, ?_, ?_, ?_, ?_⟩
  · simp [spanLevel, hc]
  · intro ha hl
    show (spanData env (w.mapAt w.L.Data) s).lookup "error" = _
    rw [h1, inherited_eq_none _ _ _ ha hl]
    rfl
  · intro v hv
    show (spanData env (w.mapAt w.L.Data) s).lookup "error" = _
    rw [h1, hv]
    rfl
  · intro ha hl
    show (spanData env (w.mapAt w.L.Data) s).lookup "errorCode" = _
    rw [h2, inherited_eq_none _ _ _ ha hl]
    rfl
  · intro v hv
    show (spanData env (w.mapAt w.L.Data) s).lookup "errorCode" = _
    rw [h2, hv]
    rfl
  · intro hs ha hl hl2
    have hcode : s.Status.Code = 2 := by rw [hs]
    have hdesc : s.Status.Description = "boom" := by rw [hs]
    constructor
    · show (spanData env (w.mapAt w.L.Data) s).lookup "error" = _
      rw [h1, inherited_eq_none _ _ _ (fun a h => (ha a h).1) hl, hdesc]
      rfl
    · show (spanData env (w.mapAt w.L.Data) s).lookup "errorCode" = _
      rw [h2, inherited_eq_none _ _ _ (fun a h => (ha a h).2) hl2, hcode]
      rfl

/-- C2, at the span of scenario S6 (status code 2, description "boom", no attributes) and a
logger without fields: Error level, error = "boom", errorCode = "Unknown". -/
theorem exportSpan_error_fields_boom :
    boomSpan.Status.Code ≠ 0 ∧
    ∃ r, spanRecord specEnv freshWorld boomSpan = some r ∧ r.Level = Level.ErrorLevel ∧
      r.Data.lookup "error" = some (Value.str "boom") ∧
      r.Data.lookup "errorCode" = some (Value.str "Unknown") := by
  refine ⟨by decide, ?_⟩
  obtain ⟨r, hr, hlevel, -, -, -, -, hboom⟩ :=
    exportSpan_error_fields specEnv freshWorld boomSpan (by decide) (by decide) (by decide)
  have hb := hboom rfl (by simp [boomSpan]) (by simp [freshWorld, World.mapAt])
    (by simp [freshWorld, World.mapAt])
  exact ⟨r, hr, hlevel, hb.1, hb.2⟩

/-- C3, as stated, fails: a span whose start time is the zero `Time` and whose end time is of
our days is logged with the wall clock's time, not its start time, and its duration field is
not the difference of the two times (which no `Duration` can hold) but the largest
`Duration`. -/
theorem exportSpan_zero_start_time :
    ∃ r, spanRecord specEnv freshWorld zeroStartSpan = some r ∧
      r.Time ≠ zeroStartSpan.StartTime ∧
      r.Data.lookup "duration"
        ≠ some (Value.duration (zeroStartSpan.EndTime.ns - zeroStartSpan.StartTime.ns)) ∧
      r.Data.lookup "duration" = some (Value.duration maxDuration) := by
  have hdur : (spanData specEnv (freshWorld.mapAt freshWorld.L.Data) zeroStartSpan).lookup
      "duration" = some (Value.duration maxDuration) :=
    lookup_statusData_of_some _ zeroStartSpan _ _
      (lookup_baseData_Duration specEnv _ zeroStartSpan (by decide))
  refine ⟨_, spanRecord_eq specEnv freshWorld zeroStartSpan, ?_, ?_, hdur⟩
  · show spanTime specEnv freshWorld zeroStartSpan ≠ zeroStartSpan.StartTime
    decide
  · show (spanData specEnv (freshWorld.mapAt freshWorld.L.Data) zeroStartSpan).lookup
      "duration" ≠ _
    rw [hdur]
    decide

/-- C3, amended: for a span whose start time is not the zero `Time`, the span record carries
the span's start time as its log time (for a zero start time it carries a reading of the
wall clock taken during the call); and for every span the duration field is
`EndTime().Sub(StartTime())` of the span's own times, which is the difference of the two
times whenever that fits a `Duration` and the largest or smallest `Duration` otherwise;
whatever the attributes and the fields of `log.L` are (the duration field not being named
"spanKind"). -/
theorem exportSpan_time_and_duration (env : Env) (w : World) (s : ReadOnlySpan)
    (hd : env.logfields.Duration ≠ "spanKind") :
    ∃ r, spanRecord env w s = some r ∧
      (s.StartTime ≠ Time.zero → r.Time = s.StartTime) ∧
      (s.StartTime = Time.zero →
        ∃ n, w.ticks ≤ n ∧ n < (exportSpan env w s).ticks ∧ r.Time = w.clock n) ∧
      r.Data.lookup env.logfields.Duration
        = some (Value.duration (s.EndTime.Sub s.StartTime)) ∧
      (minDuration ≤ s.EndTime.ns - s.StartTime.ns →
        s.EndTime.ns - s.StartTime.ns ≤ maxDuration →
        s.EndTime.Sub s.StartTime = s.EndTime.ns - s.StartTime.ns) ∧
      (maxDuration < s.EndTime.ns - s.StartTime.ns →
        s.EndTime.Sub s.StartTime = maxDuration) ∧
      (s.EndTime.ns - s.StartTime.ns < minDuration →
        s.EndTime.Sub s.StartTime = minDuration) := by
  refine ⟨_, spanRecord_eq env w s, ?_, ?_, ?_, ?_, ?_, ?_⟩
  · intro hz
    show spanTime env w s = s.StartTime
    rw [spanTime, if_neg hz]
  · intro hz
    refine ⟨w.ticks + (warnings env w s).length, Nat.le_add_right _ _, ?_, ?_⟩
    · rw [exportSpan_eq]
      show _ < ticksAfter env w s
      rw [ticksAfter, if_pos hz]
      exact Nat.lt_succ_self _
    · show spanTime env w s = _
      rw [spanTime, if_pos hz]
  · exact lookup_statusData_of_some _ s _ _ (lookup_baseData_Duration env _ s hd)
  · intro h1 h2
    simp only [Time.Sub]
    rw [if_neg (not_lt.mpr h1), if_neg (not_lt.mpr h2)]
  · intro h1
    have h0 : ¬ s.EndTime.ns - s.StartTime.ns < minDuration := by
      have hmm : minDuration ≤ maxDuration := by decide
      intro h
      exact lt_irrefl _ (lt_trans (lt_of_lt_of_le h hmm) h1)
    simp only [Time.Sub]
    rw [if_neg h0, if_pos h1]
  · intro h1
    simp only [Time.Sub]
    rw [if_pos h1]

/-- C3, amended, at a span that starts at 1000 ns and ends at 4500 ns, with attributes and a
logger field present: log time 1000 ns, duration 3500 ns. -/
theorem exportSpan_time_and_duration_sample :
    specEnv.logfields.Duration ≠ "spanKind" ∧
    ∃ r, spanRecord specEnv taggedWorld okSpan = some r ∧ r.Time = ⟨1000⟩ ∧
      r.Data.lookup "duration" = some (Value.duration 3500) := by
  refine ⟨by decide, ?_⟩
  obtain ⟨r, hr, ht, -, hdur, -⟩ :=
    exportSpan_time_and_duration specEnv taggedWorld okSpan (by decide)
  exact ⟨r, hr, ht (by decide), hdur⟩

/-- C4: `ExportSpans` returns `nil` for every batch, the empty one and batches with failed or
lossy spans included; `Shutdown` returns `nil`, logs nothing and changes nothing. -/
theorem ExportSpans_and_Shutdown_succeed :
    (∀ (env : Env) (ctx : Context) (w : World) (spans : List ReadOnlySpan),
      (ExportSpans env ctx w spans).2 = none) ∧
    (∀ (env : Env) (ctx : Context) (w : World), ExportSpans env ctx w [] = (w, none)) ∧
    (∀ (ctx : Context) (w : World),
      (Shutdown ctx w).2 = none ∧ (Shutdown ctx w).1 = w ∧ (Shutdown ctx w).1.out = w.out) :=
  ⟨fun _ _ _ _ => rfl, fun _ _ _ => rfl, fun _ _ => ⟨rfl, rfl, rfl⟩⟩

/-- C5, as stated, fails: a span whose `DroppedAttributes()` is -1 has a non-zero drop
counter, yet `exportSpan` logs the span record only, at Info level, and no warning. -/
theorem exportSpan_negative_counter_no_warning :
    negativeDropSpan.DroppedAttributes ≠ 0 ∧
    (emitted specEnv freshWorld negativeDropSpan).map (fun r => (r.Level, r.Message))
      = [(Level.InfoLevel, "Span")] := by
  refine ⟨by decide, ?_⟩
  rw [emitted_eq]
  have hw : warnings specEnv freshWorld negativeDropSpan = [] := by
    unfold warnings
    rw [if_neg (by decide)]
  rw [hw]
  rfl

/-- C5, amended: `exportSpan` logs exactly one span record (message "Span", never at Warning
level), last. If one of the three drop counters is greater than zero, exactly one record
precedes it: a warning that carries the span's trace id and span id, the three drop counters
and the number of retained attributes (the keys of the warning's map literal being pairwise
different). If none of the counters is greater than zero, no warning is logged. -/
theorem exportSpan_records (env : Env) (w : World) (s : ReadOnlySpan)
    (hw : env.WarningDistinct) :
    ∃ r, spanRecord env w s = some r ∧ r.Message = "Span" ∧ r.Level ≠ Level.WarnLevel ∧
      ((0 < s.DroppedAttributes ∨ 0 < s.DroppedEvents ∨ 0 < s.DroppedLinks) →
        ∃ wr, emitted env w s = [wr, r] ∧ wr.Level = Level.WarnLevel ∧ wr.Message ≠ "Span" ∧
          wr.Data.lookup env.logfields.TraceID
            = some (Value.str s.SpanContext.TraceID.String) ∧
          wr.Data.lookup env.logfields.SpanID
            = some (Value.str s.SpanContext.SpanID.String) ∧
          wr.Data.lookup "droppedAttributers" = some (Value.int s.DroppedAttributes) ∧
          wr.Data.lookup "droppedEvents" = some (Value.int s.DroppedEvents) ∧
          wr.Data.lookup "droppedLinks" = some (Value.int s.DroppedLinks) ∧
          wr.Data.lookup "maxAttributes" = some (Value.int s.Attributes.length)) ∧
      (¬ (0 < s.DroppedAttributes ∨ 0 < s.DroppedEvents ∨ 0 < s.DroppedLinks) →
        emitted env w s = [r]) := by
  refine ⟨_, spanRecord_eq env w s, rfl, ?_, ?_, ?_⟩
  · show spanLevel s ≠ Level.WarnLevel
    unfold spanLevel
    split <;> decide
  · intro hd
    have hd' : s.DroppedAttributes > 0 ∨ s.DroppedEvents > 0 ∨ s.DroppedLinks > 0 := hd
    refine ⟨⟨Level.WarnLevel, "span had dropped attributes", w.clock w.ticks,
      WithFields (droppedFields env s)⟩, ?_, rfl, ?_, ?_⟩
    · rw [emitted_eq]
      unfold warnings
      rw [if_pos hd']
      rfl
    · show "span had dropped attributes" ≠ "Span"
      decide
    · simp only [Env.WarningDistinct, warningKeys, List.nodup_cons, List.mem_cons,
        List.mem_singleton, not_or, List.not_mem_nil, not_false_eq_true, and_true,
        List.nodup_nil] at hw
      obtain ⟨⟨a1, a2, -⟩, ⟨b2, b3, b4, b5, b6⟩, ⟨c3, c4, c5, c6⟩, -⟩ := hw
      have c3' := Ne.symm c3
      have c4' := Ne.symm c4
      have c5' := Ne.symm c5
      have c6' := Ne.symm c6
      have b3' := Ne.symm b3
      have b4' := Ne.symm b4
      have b5' := Ne.symm b5
      have b6' := Ne.symm b6
      refine ⟨lookup_WithFields _ _ _ ?_ rfl, lookup_WithFields _ _ _ ?_ rfl,
        lookup_WithFields _ _ _ ?_ rfl, lookup_WithFields _ _ _ ?_ rfl,
        lookup_WithFields _ _ _ ?_ rfl, lookup_WithFields _ _ _ ?_ rfl⟩ <;>
      simp [droppedFields, AList.lookup_insert, AList.lookup_insert_ne, *]
  · intro hd
    have hd' : ¬ (s.DroppedAttributes > 0 ∨ s.DroppedEvents > 0 ∨ s.DroppedLinks > 0) := hd
    rw [emitted_eq]
    unfold warnings
    rw [if_neg hd']
    rfl

/-- C5, amended, at the span of scenario S5 (`DroppedAttributes = 2`): a warning that carries
the counter 2, then the span record. -/
theorem exportSpan_records_dropped :
    specEnv.WarningDistinct ∧
    ∃ wr r, emitted specEnv freshWorld droppedSpan = [wr, r] ∧
      wr.Level = Level.WarnLevel ∧ r.Message = "Span" ∧
      wr.Data.lookup "droppedAttributers" = some (Value.int 2) := by
  refine ⟨by decide, ?_⟩
  obtain ⟨r, -, hm, -, hpos, -⟩ :=
    exportSpan_records specEnv freshWorld droppedSpan (by decide)
  obtain ⟨wr, he, hl, -, -, -, hda, -⟩ := hpos (Or.inl (by decide))
  exact ⟨wr, r, he, hl, hm, hda⟩

/-- C6: the code stores the bound method `s.Name`, not the string `s.Name()`, under the name
key. At the span named "op" the name field is a method value and so not the string "op";
for every span the name field is that method value, while the trace id, span id, parent span
id, start time and end time fields hold what the span's accessors return, attributes and
logger fields of the same key notwithstanding. -/
theorem exportSpan_name_is_method_value :
    (∃ r, spanRecord specEnv taggedWorld okSpan = some r ∧
      r.Data.lookup "name" = some (Value.method "op") ∧
      r.Data.lookup "name" ≠ some (Value.str "op")) ∧
    (∀ (env : Env) (w : World) (s : ReadOnlySpan), env.Distinct →
      ∃ r, spanRecord env w s = some r ∧
        r.Data.lookup env.logfields.Name = some (Value.method s.Name) ∧
        r.Data.lookup env.logfields.Name ≠ some (Value.str s.Name) ∧
        r.Data.lookup env.logfields.TraceID
          = some (Value.str s.SpanContext.TraceID.String) ∧
        r.Data.lookup env.logfields.SpanID
          = some (Value.str s.SpanContext.SpanID.String) ∧
        r.Data.lookup env.logfields.ParentSpanID
          = some (Value.str s.Parent.SpanID.String) ∧
        r.Data.lookup env.logfields.StartTime = some (Value.time s.StartTime) ∧
        r.Data.lookup env.logfields.EndTime = some (Value.time s.EndTime)) := by
  have general : ∀ (env : Env) (w : World) (s : ReadOnlySpan), env.Distinct →
      ∃ r, spanRecord env w s = some r ∧
        r.Data.lookup env.logfields.Name = some (Value.method s.Name) ∧
        r.Data.lookup env.logfields.Name ≠ some (Value.str s.Name) ∧
        r.Data.lookup env.logfields.TraceID
          = some (Value.str s.SpanContext.TraceID.String) ∧
        r.Data.lookup env.logfields.SpanID
          = some (Value.str s.SpanContext.SpanID.String) ∧
        r.Data.lookup env.logfields.ParentSpanID
          = some (Value.str s.Parent.SpanID.String) ∧
        r.Data.lookup env.logfields.StartTime = some (Value.time s.StartTime) ∧
        r.Data.lookup env.logfields.EndTime = some (Value.time s.EndTime) := by
    intro env w s hdist
    obtain ⟨h1, h2, h3, h4, h5, h6, -⟩ := lookup_baseData_own env (w.mapAt w.L.Data) s hdist
    have hname := lookup_statusData_of_some _ s _ _ h1
    refine ⟨_, spanRecord_eq env w s, hname, ?_, lookup_statusData_of_some _ s _ _ h2,
      lookup_statusData_of_some _ s _ _ h3, lookup_statusData_of_some _ s _ _ h4,
      lookup_statusData_of_some _ s _ _ h5, lookup_statusData_of_some _ s _ _ h6⟩
    show (spanData env (w.mapAt w.L.Data) s).lookup env.logfields.Name ≠ _
    have hname' : (spanData env (w.mapAt w.L.Data) s).lookup env.logfields.Name
        = some (Value.method s.Name) := hname
    rw [hname']
    simp
  refine ⟨?_, general⟩
  obtain ⟨r, hr, hn, hne, -⟩ := general specEnv taggedWorld okSpan (by decide)
  exact ⟨r, hr, hn, hne⟩

/-- C7: for a key `k` that is none of the keys the exporter sets itself, the span record
holds under `k` the value of the last attribute whose key is `k` if there is one, otherwise
the value `log.L` has for `k` if it has one, and otherwise nothing. The export leaves `log.L`
and every map allocated before the call as they were, the field map of `log.L` among them. -/
theorem exportSpan_frame (env : Env) (w : World) (s : ReadOnlySpan) (k : String)
    (hk : k ∉ ownKeys env) :
    ∃ r, spanRecord env w s = some r ∧
      r.Data.lookup k = inherited (w.mapAt w.L.Data) s.Attributes k ∧
      (∀ v, lastAttr s.Attributes k = some v → r.Data.lookup k = some (Value.attr v)) ∧
      (lastAttr s.Attributes k = none → r.Data.lookup k = (w.mapAt w.L.Data).lookup k) ∧
      ((∀ a ∈ s.Attributes, a.Key ≠ k) → k ∉ w.mapAt w.L.Data → k ∉ r.Data) ∧
      (exportSpan env w s).L = w.L ∧
      (∃ fresh, (exportSpan env w s).maps = w.maps ++ fresh) ∧
      (w.L.Data < w.maps.length →
        (exportSpan env w s).mapAt (exportSpan env w s).L.Data = w.mapAt w.L.Data) := by
  have hk' : k ∉ env.logfields.names ∧ k ≠ "spanKind" ∧ k ≠ ErrorKey ∧ k ≠ _errorCodeKey := by
    simp only [ownKeys, List.mem_append, List.mem_cons, List.mem_singleton, not_or,
      List.not_mem_nil, not_false_eq_true, and_true] at hk
    exact ⟨hk.1, hk.2.1, hk.2.2.1, hk.2.2.2⟩
  have hlook : (spanData env (w.mapAt w.L.Data) s).lookup k
      = inherited (w.mapAt w.L.Data) s.Attributes k := by
    unfold spanData
    rw [lookup_statusData_frame _ s k hk'.2.2.1 hk'.2.2.2,
      lookup_spanData_frame env _ s k hk'.1 hk'.2.1]
  refine ⟨_, spanRecord_eq env w s, hlook, ?_, ?_, ?_, ?_, ?_, ?_⟩
  · intro v hv
    show (spanData env (w.mapAt w.L.Data) s).lookup k = _
    rw [hlook, inherited, hv]
  · intro hv
    show (spanData env (w.mapAt w.L.Data) s).lookup k = _
    rw [hlook, inherited, hv]
  · intro ha hl
    rw [← AList.lookup_eq_none]
    show (spanData env (w.mapAt w.L.Data) s).lookup k = none
    rw [hlook, inherited_eq_none _ _ _ ha hl]
  · rw [exportSpan_eq]
  · exact ⟨_, by rw [exportSpan_eq]⟩
  · intro hlt
    rw [exportSpan_eq]
    simp only [World.mapAt, List.getD_eq_getElem?_getD]
    rw [List.getElem?_append_left hlt]

/-- C7, at a span with two attributes of key `cid` and a logger field `component`: the record
holds the later `cid` and the logger's `component`. -/
theorem exportSpan_frame_sample :
    "cid" ∉ ownKeys specEnv ∧ "component" ∉ ownKeys specEnv ∧
    ∃ r, spanRecord specEnv taggedWorld okSpan = some r ∧
      r.Data.lookup "cid" = some (Value.attr (AttrValue.STRING "c2")) ∧
      (exportSpan specEnv taggedWorld okSpan).L = taggedWorld.L := by
  refine ⟨by decide, by decide, ?_⟩
  obtain ⟨r, hr, hcid, -, -, -, hL, -⟩ :=
    exportSpan_frame specEnv taggedWorld okSpan "cid" (by decide)
  refine ⟨r, hr, ?_, hL⟩
  rw [hcid]
  decide

end Otelutil

namespace Hcsshim

/-! ## `NewGUID`: C8 -/

/-- C8: for every string `x`, `NewGUID(x)` is a value of 16 bytes whose byte `i`, for
`i < 16`, is byte `i` of the 20-byte SHA-1 digest of the bytes of `x`; equal strings give
equal values. -/
theorem NewGUID_eq_digest_take (sum : List UInt8 → Digest) (x : List UInt8) :
    (NewGUID sum x).length = 16 ∧ (sum x).bytes.length = 20 ∧
    (∀ i, i < 16 → (NewGUID sum x)[i]? = (sum x).bytes[i]?) ∧
    NewGUID sum x = (sum x).bytes.take 16 ∧
    (∀ y, x = y → NewGUID sum x = NewGUID sum y) := by
  have hsize := (sum x).size
  have htake : NewGUID sum x = (sum x).bytes.take 16 := by
    simp [NewGUID, copy, hsize]
  refine ⟨?_, hsize, ?_, htake, ?_⟩
  · rw [htake, List.length_take, hsize]
    rfl
  · intro i hi
    rw [htake, List.getElem?_take_of_lt hi]
  · intro y hy
    rw [hy]

/-! ## `layerPath` and the layer pass-throughs: C9 -/

theorem length_ne_zero_of_ne_empty (s : String) (h : s ≠ "") : s.length ≠ 0 := by
  obtain ⟨l⟩ := s
  intro h0
  apply h
  cases l with
  | nil => rfl
  | cons a t => exact absurd h0 (by simp [String.length])

theorem joinStep_first (c : Char) (e : String) (h : e ≠ "") :
    joinStep ("", c) e = (e, e.data.getLastD c) := by
  have hl : e.length > 0 := Nat.pos_of_ne_zero (length_ne_zero_of_ne_empty e h)
  have h0 : ("" : String).length = 0 := rfl
  simp only [joinStep, h0, if_true, hl]
  congr 1

theorem joinStep_separator (b e : String) (c : Char) (hb : b ≠ "") (he : e ≠ "")
    (hs : isSlash c = false) (hc : c ≠ ':') :
    (joinStep (b, c) e).1 = b ++ "\\" ++ e := by
  have hl : e.length > 0 := Nat.pos_of_ne_zero (length_ne_zero_of_ne_empty e he)
  have hb' : ¬ b.length = 0 := length_ne_zero_of_ne_empty b hb
  simp only [joinStep, hb', if_false, hs, hc, hl, if_true, Bool.false_eq_true]
  exact String.ext (by simp)

theorem Join_all_empty (Clean : String → String) : Join Clean ["", ""] = "" := by
  rfl

theorem Join_two (Clean : String → String) (a e : String) (ha : a ≠ "") (he : e ≠ "")
    (hlast : ∀ c, lastChar? a = some c → isSlash c = false ∧ c ≠ ':') :
    Join Clean [a, e] = Clean (a ++ "\\" ++ e) := by
  have hne : a.data ≠ [] := by
    intro h0
    exact ha (String.ext h0)
  obtain ⟨c, hc⟩ : ∃ c, a.data.getLast? = some c := by
    cases h : a.data.getLast? with
    | none => exact absurd (List.getLast?_eq_none_iff.mp h) hne
    | some c => exact ⟨c, rfl⟩
  have hD : a.data.getLastD (Char.ofNat 0) = c := by
    rw [List.getLastD_eq_getLast?, hc]
    rfl
  have hprop := hlast c hc
  have hb : (List.foldl joinStep ("", Char.ofNat 0) [a, e]).1 = a ++ "\\" ++ e := by
    simp only [List.foldl_cons, List.foldl_nil]
    rw [joinStep_first _ a ha, hD, joinStep_separator a e c ha he hprop.1 hprop.2]
  have hlen : ¬ (a ++ "\\" ++ e).length = 0 := by
    have := length_ne_zero_of_ne_empty a ha
    simp only [String.length_append]
    omega
  simp only [Join, hb, hlen, if_false]

/-- C9, as stated, fails: for an empty home directory and an empty id, `layerPath` is the
empty string (whatever `Clean` does), so what `ActivateLayer` hands to the layer subsystem
is the empty string and not the separator that home directory, separator and id spell;
and `ProcessBaseLayer` composes nothing, it forwards the path it is given. -/
theorem layerPath_empty_is_not_concatenation :
    (∀ Clean : String → String, layerPath Clean ⟨0, ""⟩ "" = "") ∧
    (∀ Clean : String → String,
      ActivateLayer echoLayer Clean ⟨false⟩ ⟨0, ""⟩ "" = some "") ∧
    ("" : String) ≠ (⟨0, ""⟩ : DriverInfo).HomeDir ++ "\\" ++ "" ∧
    ProcessBaseLayer echoLayer ⟨false⟩ "C:\\base" = some "C:\\base" :=
  ⟨fun _ => rfl, fun _ => rfl, by decide, rfl⟩

/-- C9, amended: `layerPath(info, id)` is `filepath.Join(info.HomeDir, id)`: the empty string
when both are empty, and, when both are non-empty and the home directory does not end in a
separator or a colon, the cleaned form of home directory, separator, id. Every facade
function that takes a `DriverInfo` forwards exactly this path to the layer subsystem. -/
theorem layerPath_is_Join {Reader Writer : Type} (wclayer : WCLayer Reader Writer)
    (Clean : String → String) (info : DriverInfo) (id : String) :
    layerPath Clean info id = Join Clean [info.HomeDir, id] ∧
    (info.HomeDir = "" → id = "" → layerPath Clean info id = "") ∧
    (info.HomeDir ≠ "" → id ≠ "" →
      (∀ c, lastChar? info.HomeDir = some c → isSlash c = false ∧ c ≠ ':') →
      layerPath Clean info id = Clean (info.HomeDir ++ "\\" ++ id)) ∧
    (∀ ctx, ActivateLayer wclayer Clean ctx info id
      = wclayer.ActivateLayer ctx (layerPath Clean info id)) ∧
    (∀ ctx parent, CreateLayer wclayer Clean ctx info id parent
      = wclayer.CreateLayer ctx (layerPath Clean info id) parent) ∧
    (∀ ctx parentId paths, CreateSandboxLayer wclayer Clean ctx info id parentId paths
      = wclayer.CreateScratchLayer ctx (layerPath Clean info id) paths) ∧
    (∀ ctx parentId paths, CreateScratchLayer wclayer Clean ctx info id parentId paths
      = wclayer.CreateScratchLayer ctx (layerPath Clean info id) paths) ∧
    (∀ ctx, DeactivateLayer wclayer Clean ctx info id
      = wclayer.DeactivateLayer ctx (layerPath Clean info id)) ∧
    (∀ ctx, DestroyLayer wclayer Clean ctx info id
      = wclayer.DestroyLayer ctx (layerPath Clean info id)) ∧
    (∀ ctx size, ExpandSandboxSize wclayer Clean ctx info id size
      = wclayer.ExpandScratchSize ctx (layerPath Clean info id) size) ∧
    (∀ ctx size, ExpandScratchSize wclayer Clean ctx info id size
      = wclayer.ExpandScratchSize ctx (layerPath Clean info id) size) ∧
    (∀ ctx folder paths, ExportLayer wclayer Clean ctx info id folder paths
      = wclayer.ExportLayer ctx (layerPath Clean info id) folder paths) ∧
    (∀ ctx, GetLayerMountPath wclayer Clean ctx info id
      = wclayer.GetLayerMountPath ctx (layerPath Clean info id)) ∧
    (∀ ctx folder paths, ImportLayer wclayer Clean ctx info id folder paths
      = wclayer.ImportLayer ctx (layerPath Clean info id) folder paths) ∧
    (∀ ctx, LayerExists wclayer Clean ctx info id
      = wclayer.LayerExists ctx (layerPath Clean info id)) ∧
    (∀ ctx paths, PrepareLayer wclayer Clean ctx info id paths
      = wclayer.PrepareLayer ctx (layerPath Clean info id) paths) ∧
    (∀ ctx, UnprepareLayer wclayer Clean ctx info id
      = wclayer.UnprepareLayer ctx (layerPath Clean info id)) ∧
    (∀ ctx paths, NewLayerReader wclayer Clean ctx info id paths
      = wclayer.NewLayerReader ctx (layerPath Clean info id) paths) ∧
    (∀ ctx paths, NewLayerWriter wclayer Clean ctx info id paths
      = wclayer.NewLayerWriter ctx (layerPath Clean info id) paths) ∧
    (∀ ctx, GetSharedBaseImages wclayer ctx = wclayer.GetSharedBaseImages ctx) ∧
    (∀ ctx path, ProcessBaseLayer wclayer ctx path = wclayer.ProcessBaseLayer ctx path) ∧
    (∀ ctx path, ProcessUtilityVMImage wclayer ctx path
      = wclayer.ProcessUtilityVMImage ctx path) ∧
    (∀ ctx path, ConvertToBaseLayer wclayer ctx path
      = wclayer.ConvertToBaseLayer ctx path) := by
  refine ⟨rfl, ?_, ?_, fun _ => rfl, fun _ _ => rfl, fun _ _ _ => rfl, fun _ _ _ => rfl,
    fun _ => rfl, fun _ => rfl, fun _ _ => rfl, fun _ _ => rfl, fun _ _ _ => rfl,
    fun _ => rfl, fun _ _ _ => rfl, fun _ => rfl, fun _ _ => rfl, fun _ => rfl,
    fun _ _ => rfl, fun _ _ => rfl, fun _ => rfl, fun _ _ => rfl, fun _ _ => rfl,
    fun _ _ => rfl⟩
  · intro h1 h2
    rw [layerPath, h1, h2]
    exact Join_all_empty Clean
  · intro h1 h2 h3
    exact Join_two Clean info.HomeDir id h1 h2 h3

/-- C9, amended, at the home directory `C:\layers` and the id `abc`: the path handed to
`DestroyLayer` of the layer subsystem is `Clean` of `C:\layers\abc`. -/
theorem layerPath_is_Join_sample :
    lastChar? "C:\\layers" = some 's' ∧
    ∀ Clean : String → String,
      DestroyLayer echoLayer Clean ⟨false⟩ ⟨1, "C:\\layers"⟩ "abc"
        = some (Clean "C:\\layers\\abc") := by
  refine ⟨by decide, ?_⟩
  intro Clean
  obtain ⟨-, -, hjoin, -, -, -, -, -, hdestroy, -⟩ :=
    layerPath_is_Join echoLayer Clean ⟨1, "C:\\layers"⟩ "abc"
  rw [hdestroy ⟨false⟩, hjoin (by decide) (by decide) (by
    intro c hc
    have hc' : c = 's' := by
      have : lastChar? "C:\\layers" = some 's' := by decide
      rw [this] at hc
      exact (Option.some.inj hc).symm
    subst hc'
    decide)]
  rfl

/-! ## `Container`: C10 -/

theorem Close_of_closed (c : Container) (h : c.state = State.Closed) : c.Close = (c, none) := by
  simp [Container.Close, h]

theorem state_Close (c : Container) : c.Close.1.state = State.Closed := by
  unfold Container.Close
  split
  · assumption
  · rfl

theorem Close_result (c : Container) : c.Close.2 = none := by
  unfold Container.Close
  split <;> rfl

theorem closeTimes_of_closed (n : Nat) (c : Container) (h : c.state = State.Closed) :
    closeTimes n c = (c, List.replicate n none) := by
  induction n with
  | zero => rfl
  | succ n ih =>
    simp only [closeTimes, Close_of_closed c h, ih, List.replicate_succ]

/-- C10: for every container, `n + 1` calls of `Close` in a row leave the wrapper exactly as
one `Close` does; each of the calls returns success; the native handle is released once by
the whole sequence if the container was not Closed before and not at all if it was; and a
`Start` after the sequence fails with Closed and changes nothing, whatever the native bridge
would answer. -/
theorem Close_idempotent (c : Container) (n : Nat)
    (nativeStart : Option Nat → Option (Int × String)) :
    (closeTimes (n + 1) c).1 = c.Close.1 ∧
    (closeTimes (n + 1) c).2 = List.replicate (n + 1) none ∧
    (closeTimes (n + 1) c).1.state = State.Closed ∧
    (closeTimes (n + 1) c).1.released
      = c.released + (if c.state = State.Closed then 0 else 1) ∧
    (c.state ≠ State.Closed → (closeTimes (n + 1) c).1.handle = none) ∧
    Container.Start nativeStart (closeTimes (n + 1) c).1
      = ((closeTimes (n + 1) c).1, some ContainerError.Closed) := by
  have hstep : closeTimes (n + 1) c = (c.Close.1, c.Close.2 :: List.replicate n none) := by
    simp only [closeTimes, closeTimes_of_closed n c.Close.1 (state_Close c)]
  have hst := state_Close c
  refine ⟨by rw [hstep], ?_, by rw [hstep]; exact hst, ?_, ?_, ?_⟩
  · rw [hstep, Close_result, List.replicate_succ]
  · rw [hstep]
    unfold Container.Close
    split <;> simp
  · intro hc
    rw [hstep]
    unfold Container.Close
    rw [if_neg hc]
  · rw [hstep]
    show Container.Start nativeStart c.Close.1 = _
    unfold Container.Start
    rw [hst]

/-- C10, at scenario S4: a new container closed twice; both calls succeed, the handle was
released once, and `Start` then fails with Closed. -/
theorem Close_twice_then_Start :
    (closeTimes 2 (Container.create "c1" 7)).2 = [none, none] ∧
    (closeTimes 2 (Container.create "c1" 7)).1.released = 1 ∧
    (Container.Start (fun _ => none) (closeTimes 2 (Container.create "c1" 7)).1).2
      = some ContainerError.Closed := by
  obtain ⟨-, hres, -, hrel, -, hstart⟩ :=
    Close_idempotent (Container.create "c1" 7) 1 (fun _ => none)
  refine ⟨hres, ?_, ?_⟩
  · rw [hrel]
    rfl
  · rw [hstart]

end Hcsshim
